import Mathlib

/-!
Shallow embedding of the RFV customer-segmentation engine (`app.py`).

Transactions carry the source's column names (`ID_cliente`, `DiaCompra`,
`CodigoCompra`, `ValorTotal`); dates are modelled as day numbers in `ℤ`
(so a pandas date difference `.days` is plain integer subtraction) and
monetary amounts as `ℚ`.  The quartile dictionary `q_dict[r][0.25]` is
modelled as a function from metric name to a record of the three
boundaries.  Pandas `Series.max()` over a possibly empty column is
modelled with `List.max?`; the missing-key behaviour of `dict.map`
(`NaN`) is modelled with `Option`.
-/

/-- The three metric names used as keys of the quartile table
(`Recencia`, `Frequencia`, `Valor`). -/
inductive Metric : Type
  | Recencia : Metric
  | Frequencia : Metric
  | Valor : Metric
deriving DecidableEq

/-- One row of `quartis = df_RFV.quantile(q=[0.25, 0.5, 0.75])` restricted to a
single column: the boundary at each of the three quantile levels. -/
structure Quartiles : Type where
  q25 : ℚ
  q50 : ℚ
  q75 : ℚ
deriving DecidableEq

/-- The quartile dictionary `q_dict`: metric name ↦ the three boundaries. -/
def QDict : Type := Metric → Quartiles

/-- Embedding of `recencia_class(x, r, q_dict)`: recency classification,
lower is better. -/
def recencia_class (x : ℚ) (r : Metric) (q_dict : QDict) : Char :=
  if x ≤ (q_dict r).q25 then 'A'
  else if x ≤ (q_dict r).q50 then 'B'
  else if x ≤ (q_dict r).q75 then 'C'
  else 'D'

/-- Embedding of `freq_val_class(x, fv, q_dict)`: frequency/value
classification, higher is better. -/
def freq_val_class (x : ℚ) (fv : Metric) (q_dict : QDict) : Char :=
  if x ≤ (q_dict fv).q25 then 'D'
  else if x ≤ (q_dict fv).q50 then 'C'
  else if x ≤ (q_dict fv).q75 then 'B'
  else 'A'

/-- Numeric rank of a grade, `D < C < B < A`. -/
def gradeValue (g : Char) : ℕ :=
  if g = 'A' then 3 else if g = 'B' then 2 else if g = 'C' then 1 else 0

/-- Example quartile table used by concrete witnesses. -/
def exQ : QDict := fun _ => ⟨2, 4, 6⟩

/-- C1: with quartile boundaries in their defining order `q25 ≤ q50 ≤ q75`,
`recencia_class` returns `'A'` on `x ≤ q25`, `'B'` on `q25 < x ≤ q50`,
`'C'` on `q50 < x ≤ q75` and `'D'` otherwise. -/
theorem recencia_class_policy (x : ℚ) (r : Metric) (q_dict : QDict)
    (h1 : (q_dict r).q25 ≤ (q_dict r).q50) (h2 : (q_dict r).q50 ≤ (q_dict r).q75) :
    (x ≤ (q_dict r).q25 → recencia_class x r q_dict = 'A') ∧
    ((q_dict r).q25 < x → x ≤ (q_dict r).q50 → recencia_class x r q_dict = 'B') ∧
    ((q_dict r).q50 < x → x ≤ (q_dict r).q75 → recencia_class x r q_dict = 'C') ∧
    ((q_dict r).q75 < x → recencia_class x r q_dict = 'D') := by
  refine ⟨?_, ?_, ?_, ?_⟩ <;> intros <;> unfold recencia_class <;>
    split_ifs <;> first | rfl | linarith

/-- Witness for C1: the classifier evaluated inside each of the four bands of
the example table. -/
theorem recencia_class_policy_witness :
    ((exQ Metric.Recencia).q25 ≤ (exQ Metric.Recencia).q50 ∧
     (exQ Metric.Recencia).q50 ≤ (exQ Metric.Recencia).q75) ∧
    ((5 : ℚ) ≤ (exQ Metric.Recencia).q25 → recencia_class 5 Metric.Recencia exQ = 'A') ∧
    ((exQ Metric.Recencia).q25 < 5 → (5 : ℚ) ≤ (exQ Metric.Recencia).q50 →
      recencia_class 5 Metric.Recencia exQ = 'B') ∧
    ((exQ Metric.Recencia).q50 < 5 → (5 : ℚ) ≤ (exQ Metric.Recencia).q75 →
      recencia_class 5 Metric.Recencia exQ = 'C') ∧
    ((exQ Metric.Recencia).q75 < 5 → recencia_class 5 Metric.Recencia exQ = 'D') :=
  ⟨⟨by decide, by decide⟩,
   recencia_class_policy 5 Metric.Recencia exQ (by decide) (by decide)⟩

/-- C2: with quartile boundaries in their defining order `q25 ≤ q50 ≤ q75`,
`freq_val_class` returns `'D'` on `x ≤ q25`, `'C'` on `q25 < x ≤ q50`,
`'B'` on `q50 < x ≤ q75` and `'A'` otherwise. -/
theorem freq_val_class_policy (x : ℚ) (fv : Metric) (q_dict : QDict)
    (h1 : (q_dict fv).q25 ≤ (q_dict fv).q50) (h2 : (q_dict fv).q50 ≤ (q_dict fv).q75) :
    (x ≤ (q_dict fv).q25 → freq_val_class x fv q_dict = 'D') ∧
    ((q_dict fv).q25 < x → x ≤ (q_dict fv).q50 → freq_val_class x fv q_dict = 'C') ∧
    ((q_dict fv).q50 < x → x ≤ (q_dict fv).q75 → freq_val_class x fv q_dict = 'B') ∧
    ((q_dict fv).q75 < x → freq_val_class x fv q_dict = 'A') := by
  refine ⟨?_, ?_, ?_, ?_⟩ <;> intros <;> unfold freq_val_class <;>
    split_ifs <;> first | rfl | linarith

/-- Witness for C2: the classifier evaluated inside each of the four bands of
the example table. -/
theorem freq_val_class_policy_witness :
    ((exQ Metric.Valor).q25 ≤ (exQ Metric.Valor).q50 ∧
     (exQ Metric.Valor).q50 ≤ (exQ Metric.Valor).q75) ∧
    ((3 : ℚ) ≤ (exQ Metric.Valor).q25 → freq_val_class 3 Metric.Valor exQ = 'D') ∧
    ((exQ Metric.Valor).q25 < 3 → (3 : ℚ) ≤ (exQ Metric.Valor).q50 →
      freq_val_class 3 Metric.Valor exQ = 'C') ∧
    ((exQ Metric.Valor).q50 < 3 → (3 : ℚ) ≤ (exQ Metric.Valor).q75 →
      freq_val_class 3 Metric.Valor exQ = 'B') ∧
    ((exQ Metric.Valor).q75 < 3 → freq_val_class 3 Metric.Valor exQ = 'A') :=
  ⟨⟨by decide, by decide⟩,
   freq_val_class_policy 3 Metric.Valor exQ (by decide) (by decide)⟩

/-- C3: both classifiers are total into `{A, B, C, D}`, and a value equal to a
quartile boundary lands in the first bucket the `≤` chain reaches: at `q25`
always the first bucket of the policy; at `q50` the first bucket still
reachable (`'A'`/`'D'` if `q50 ≤ q25`, else the second bucket); at `q75` the
first bucket reachable through the chain. -/
theorem grade_total_boundary (x : ℚ) (r : Metric) (q_dict : QDict) :
    (recencia_class x r q_dict = 'A' ∨ recencia_class x r q_dict = 'B' ∨
     recencia_class x r q_dict = 'C' ∨ recencia_class x r q_dict = 'D') ∧
    (freq_val_class x r q_dict = 'A' ∨ freq_val_class x r q_dict = 'B' ∨
     freq_val_class x r q_dict = 'C' ∨ freq_val_class x r q_dict = 'D') ∧
    recencia_class (q_dict r).q25 r q_dict = 'A' ∧
    freq_val_class (q_dict r).q25 r q_dict = 'D' ∧
    recencia_class (q_dict r).q50 r q_dict =
      (if (q_dict r).q50 ≤ (q_dict r).q25 then 'A' else 'B') ∧
    freq_val_class (q_dict r).q50 r q_dict =
      (if (q_dict r).q50 ≤ (q_dict r).q25 then 'D' else 'C') ∧
    recencia_class (q_dict r).q75 r q_dict =
      (if (q_dict r).q75 ≤ (q_dict r).q25 then 'A'
       else if (q_dict r).q75 ≤ (q_dict r).q50 then 'B' else 'C') ∧
    freq_val_class (q_dict r).q75 r q_dict =
      (if (q_dict r).q75 ≤ (q_dict r).q25 then 'D'
       else if (q_dict r).q75 ≤ (q_dict r).q50 then 'C' else 'B') := by
  unfold recencia_class freq_val_class
  refine ⟨?_, ?_, ?_, ?_, ?_, ?_, ?_, ?_⟩ <;> split_ifs <;> simp_all

/-- One transaction row of `df_compras`, with the source's column names.
`DiaCompra` is a calendar date modelled as a day number. -/
structure Transaction : Type where
  ID_cliente : ℕ
  DiaCompra : ℤ
  CodigoCompra : ℕ
  ValorTotal : ℚ
deriving DecidableEq

/-- Embedding of `dia_atual = df_compras['DiaCompra'].max()`; `none` models the
undefined maximum of an empty column. -/
def dia_atual (df : List Transaction) : Option ℤ :=
  (df.map (fun t => t.DiaCompra)).max?

/-- The distinct customer ids produced by `groupby('ID_cliente')`. -/
def clientes (df : List Transaction) : List ℕ :=
  (df.map (fun t => t.ID_cliente)).dedup

/-- Embedding of `df_compras.groupby('ID_cliente')['DiaCompra'].max()` for one
customer: the column `DiaUltimaCompra`. -/
def DiaUltimaCompra (df : List Transaction) (c : ℕ) : Option ℤ :=
  ((df.filter (fun t => t.ID_cliente == c)).map (fun t => t.DiaCompra)).max?

/-- Embedding of `df_recencia`: for each customer, `Recencia` is
`(dia_atual - DiaUltimaCompra).days`. -/
def df_recencia (df : List Transaction) : List (ℕ × ℤ) :=
  match dia_atual df with
  | none => []
  | some d => (clientes df).filterMap fun c =>
      (DiaUltimaCompra df c).map fun u => (c, d - u)

/-- Embedding of `df_frequencia`: per-customer count of `CodigoCompra`
(the number of that customer's transaction rows). -/
def df_frequencia (df : List Transaction) : List (ℕ × ℕ) :=
  (clientes df).map fun c => (c, (df.filter (fun t => t.ID_cliente == c)).length)

/-- Embedding of `df_valor`: per-customer sum of `ValorTotal`. -/
def df_valor (df : List Transaction) : List (ℕ × ℚ) :=
  (clientes df).map fun c =>
    (c, ((df.filter (fun t => t.ID_cliente == c)).map (fun t => t.ValorTotal)).sum)

/-- One row of the merged `df_RFV` table (the derived CustomerMetrics). -/
structure CustomerMetrics : Type where
  ID_cliente : ℕ
  Recencia : ℤ
  Frequencia : ℕ
  Valor : ℚ
deriving DecidableEq

/-- Embedding of the three-way merge building `df_RFV`: the frames
`df_recencia`, `df_frequencia` and `df_valor` are all keyed by the same
customer list, so the inner merge on `ID_cliente` combines, per customer,
its recency, frequency and value. -/
def df_RFV (df : List Transaction) : List CustomerMetrics :=
  match dia_atual df with
  | none => []
  | some d => (clientes df).filterMap fun c =>
      (DiaUltimaCompra df c).map fun u =>
        { ID_cliente := c
          Recencia := d - u
          Frequencia := (df.filter (fun t => t.ID_cliente == c)).length
          Valor := ((df.filter (fun t => t.ID_cliente == c)).map (fun t => t.ValorTotal)).sum }

/-- Max of a nonempty integer list is attained and is an upper bound. -/
theorem int_max?_spec {l : List ℤ} {d : ℤ} (h : l.max? = some d) :
    d ∈ l ∧ ∀ b ∈ l, b ≤ d :=
  ⟨List.max?_mem (fun a b => max_choice a b) h,
   fun b hb => ((List.max?_le_iff (fun _ _ _ => max_le_iff) h).1 le_rfl) b hb⟩

/-- A customer appearing in the data has a nonempty transaction group, hence a
defined last purchase date. -/
theorem DiaUltimaCompra_isSome {df : List Transaction} {c : ℕ}
    (hc : c ∈ df.map (fun t => t.ID_cliente)) :
    ∃ u, DiaUltimaCompra df c = some u := by
  obtain ⟨t, ht, rfl⟩ := List.mem_map.1 hc
  have htf : t ∈ df.filter (fun s => s.ID_cliente == t.ID_cliente) :=
    List.mem_filter.2 ⟨ht, by simp⟩
  have : t.DiaCompra ∈
      (df.filter (fun s => s.ID_cliente == t.ID_cliente)).map (fun s => s.DiaCompra) :=
    List.mem_map.2 ⟨t, htf, rfl⟩
  have hs := List.isSome_max?_of_mem this
  exact Option.isSome_iff_exists.1 hs

/-- C4: on a nonempty dataset `dia_atual` is the maximum purchase date of the
whole dataset (an attained upper bound), and every customer appearing in the
data gets the recency `dia_atual - DiaUltimaCompra`, a nonnegative number of
whole days, recorded in `df_recencia`. -/
theorem df_recencia_correct (df : List Transaction) (hne : df ≠ []) :
    ∃ d, dia_atual df = some d ∧
      (∀ t ∈ df, t.DiaCompra ≤ d) ∧ (∃ t ∈ df, t.DiaCompra = d) ∧
      ∀ c ∈ df.map (fun t => t.ID_cliente), ∃ u, DiaUltimaCompra df c = some u ∧
        (∀ t ∈ df, t.ID_cliente = c → t.DiaCompra ≤ u) ∧
        (∃ t ∈ df, t.ID_cliente = c ∧ t.DiaCompra = u) ∧
        (c, d - u) ∈ df_recencia df ∧ 0 ≤ d - u := by
  cases hda : dia_atual df with
  | none =>
      exfalso
      have := List.max?_eq_none_iff.1 hda
      exact hne (List.map_eq_nil_iff.1 this)
  | some d =>
      obtain ⟨hdmem, hdub⟩ := int_max?_spec hda
      obtain ⟨t0, ht0, ht0d⟩ := List.mem_map.1 hdmem
      refine ⟨d, rfl, ?_, ⟨t0, ht0, ht0d⟩, ?_⟩
      · intro t ht
        exact hdub _ (List.mem_map.2 ⟨t, ht, rfl⟩)
      · intro c hc
        obtain ⟨u, hu⟩ := DiaUltimaCompra_isSome hc
        obtain ⟨humem, huub⟩ := int_max?_spec hu
        obtain ⟨t1, ht1, ht1d⟩ := List.mem_map.1 humem
        obtain ⟨ht1df, ht1c⟩ := List.mem_filter.1 ht1
        refine ⟨u, hu, ?_, ⟨t1, ht1df, by simpa using ht1c, ht1d⟩, ?_, ?_⟩
        · intro t ht htc
          exact huub _ (List.mem_map.2 ⟨t, List.mem_filter.2 ⟨ht, by simp [htc]⟩, rfl⟩)
        · have hcl : c ∈ clientes df := List.mem_dedup.2 hc
          have : dia_atual df = some d := hda
          simp only [df_recencia, this]
          exact List.mem_filterMap.2 ⟨c, hcl, by rw [hu]; rfl⟩
        · have : u ≤ d := by
            subst ht1d
            exact hdub _ (List.mem_map.2 ⟨t1, ht1df, rfl⟩)
          omega

/-- Example transaction log used by concrete witnesses: customer `1` bought on
days `0` and `9` (amounts 50 and 30), customer `2` on day `19`. -/
def exDf : List Transaction :=
  [⟨1, 0, 100, 50⟩, ⟨1, 9, 101, 30⟩, ⟨2, 19, 102, 7⟩]

/-- Witness for C4 on the example log. -/
theorem df_recencia_correct_witness :
    exDf ≠ [] ∧
    ∃ d, dia_atual exDf = some d ∧
      (∀ t ∈ exDf, t.DiaCompra ≤ d) ∧ (∃ t ∈ exDf, t.DiaCompra = d) ∧
      ∀ c ∈ exDf.map (fun t => t.ID_cliente), ∃ u, DiaUltimaCompra exDf c = some u ∧
        (∀ t ∈ exDf, t.ID_cliente = c → t.DiaCompra ≤ u) ∧
        (∃ t ∈ exDf, t.ID_cliente = c ∧ t.DiaCompra = u) ∧
        (c, d - u) ∈ df_recencia exDf ∧ 0 ≤ d - u :=
  ⟨by decide, df_recencia_correct exDf (by decide)⟩

/-- A `filterMap` whose function is everywhere `some` on the list is a `map`. -/
theorem filterMap_congr_map {α β : Type} (f : α → Option β) (g : α → β) :
    ∀ l : List α, (∀ a ∈ l, f a = some (g a)) → l.filterMap f = l.map g := by
  intro l
  induction l with
  | nil => intro _; rfl
  | cons x xs ih =>
      intro hx
      rw [List.filterMap_cons, hx x (by simp), List.map_cons,
        ih (fun a ha => hx a (by simp [ha]))]

/-- C5: on a nonempty dataset, every customer id occurring in the transactions
yields exactly one row of the merged `df_RFV` table, and that row's
`Frequencia` is the number of the customer's transactions and its `Valor` the
sum of their amounts (likewise recorded in `df_frequencia` and `df_valor`). -/
theorem df_RFV_unique_metrics (df : List Transaction) (hne : df ≠ []) (c : ℕ)
    (hc : c ∈ df.map (fun t => t.ID_cliente)) :
    (df_RFV df).countP (fun m => m.ID_cliente == c) = 1 ∧
    (c, (df.filter (fun t => t.ID_cliente == c)).length) ∈ df_frequencia df ∧
    (c, ((df.filter (fun t => t.ID_cliente == c)).map (fun t => t.ValorTotal)).sum)
      ∈ df_valor df ∧
    ∃ m ∈ df_RFV df, m.ID_cliente = c ∧
      m.Frequencia = (df.filter (fun t => t.ID_cliente == c)).length ∧
      m.Valor = ((df.filter (fun t => t.ID_cliente == c)).map (fun t => t.ValorTotal)).sum := by
  have hcl : c ∈ clientes df := List.mem_dedup.2 hc
  cases hda : dia_atual df with
  | none =>
      exact absurd (List.map_eq_nil_iff.1 (List.max?_eq_none_iff.1 hda)) hne
  | some d =>
      have hrw : df_RFV df = (clientes df).map (fun c0 =>
          { ID_cliente := c0
            Recencia := d - (DiaUltimaCompra df c0).getD 0
            Frequencia := (df.filter (fun t => t.ID_cliente == c0)).length
            Valor := ((df.filter (fun t => t.ID_cliente == c0)).map
              (fun t => t.ValorTotal)).sum : CustomerMetrics }) := by
        simp only [df_RFV, hda]
        apply filterMap_congr_map
        intro a ha
        obtain ⟨u, hu⟩ := DiaUltimaCompra_isSome (List.mem_dedup.1 ha)
        rw [hu]
        rfl
      refine ⟨?_, List.mem_map.2 ⟨c, hcl, rfl⟩, List.mem_map.2 ⟨c, hcl, rfl⟩, ?_⟩
      · rw [hrw, List.countP_map]
        have hpc : ((fun m : CustomerMetrics => m.ID_cliente == c) ∘ (fun c0 =>
            { ID_cliente := c0
              Recencia := d - (DiaUltimaCompra df c0).getD 0
              Frequencia := (df.filter (fun t => t.ID_cliente == c0)).length
              Valor := ((df.filter (fun t => t.ID_cliente == c0)).map
                (fun t => t.ValorTotal)).sum : CustomerMetrics })) = (fun c0 => c0 == c) := rfl
        rw [hpc, ← List.count_eq_countP]
        exact List.count_eq_one_of_mem (List.nodup_dedup _) hcl
      · rw [hrw]
        exact ⟨_, List.mem_map.2 ⟨c, hcl, rfl⟩, rfl, rfl, rfl⟩

/-- Witness for C5 on the example log, at customer `1`. -/
theorem df_RFV_unique_metrics_witness :
    (exDf ≠ [] ∧ 1 ∈ exDf.map (fun t => t.ID_cliente)) ∧
    ((df_RFV exDf).countP (fun m => m.ID_cliente == 1) = 1 ∧
     (1, (exDf.filter (fun t => t.ID_cliente == 1)).length) ∈ df_frequencia exDf ∧
     (1, ((exDf.filter (fun t => t.ID_cliente == 1)).map (fun t => t.ValorTotal)).sum)
       ∈ df_valor exDf ∧
     ∃ m ∈ df_RFV exDf, m.ID_cliente = 1 ∧
       m.Frequencia = (exDf.filter (fun t => t.ID_cliente == 1)).length ∧
       m.Valor = ((exDf.filter (fun t => t.ID_cliente == 1)).map
         (fun t => t.ValorTotal)).sum) :=
  ⟨⟨by decide, by decide⟩, df_RFV_unique_metrics exDf (by decide) 1 (by decide)⟩

/-- Linear interpolation between ranked values, as in pandas
`quantile(interpolation='linear')`: at fractional rank `h`, take
`v⌊h⌋ + (h - ⌊h⌋) * (v⌊h⌋₊₁ - v⌊h⌋)`; past the last index the lower value is
used (the fraction is then zero in every reachable case). -/
def interp (s : List ℚ) (h : ℚ) : ℚ :=
  s.getD ⌊h⌋₊ 0 +
    (h - (⌊h⌋₊ : ℚ)) * (s.getD (⌊h⌋₊ + 1) (s.getD ⌊h⌋₊ 0) - s.getD ⌊h⌋₊ 0)

/-- Embedding of `Series.quantile(q)` with linear interpolation: sort the
column, then interpolate at rank `(n - 1) * q`; undefined on an empty column. -/
def quantile (l : List ℚ) (q : ℚ) : Option ℚ :=
  if l = [] then none
  else some (interp l.mergeSort (((l.length - 1 : ℕ) : ℚ) * q))

/-- In-bounds `getD` ignores its default. -/
theorem getD_of_lt (s : List ℚ) {i : ℕ} (d : ℚ) (h : i < s.length) :
    s.getD i d = s.getD i 0 := by
  simp [List.getD_eq_getElem?_getD, List.getElem?_eq_getElem h]

/-- Out-of-bounds `getD` is its default. -/
theorem getD_of_le (s : List ℚ) {i : ℕ} (d : ℚ) (h : s.length ≤ i) :
    s.getD i d = d := by
  simp [List.getD_eq_getElem?_getD, List.getElem?_eq_none h]

/-- Reading a sorted list at increasing indices gives increasing values. -/
theorem sorted_getD_le {s : List ℚ} (hs : List.Sorted (· ≤ ·) s) {i j : ℕ}
    (hij : i ≤ j) (hj : j < s.length) : s.getD i 0 ≤ s.getD j 0 := by
  have hi : i < s.length := Nat.lt_of_le_of_lt hij hj
  rw [List.getD_eq_getElem?_getD, List.getD_eq_getElem?_getD,
    List.getElem?_eq_getElem hi, List.getElem?_eq_getElem hj]
  simpa using hs.rel_get_of_le (a := ⟨i, hi⟩) (b := ⟨j, hj⟩) hij

/-- Interpolation at a larger rank in a sorted list gives a larger value, as
long as the ranks stay within the index range. -/
theorem interp_mono {s : List ℚ} (hs : List.Sorted (· ≤ ·) s) (hne : s ≠ [])
    {h k : ℚ} (h0 : 0 ≤ h) (hhk : h ≤ k) (hk : k ≤ ((s.length - 1 : ℕ) : ℚ)) :
    interp s h ≤ interp s k := by
  have k0 : 0 ≤ k := le_trans h0 hhk
  have hn1 : 1 ≤ s.length := List.length_pos.2 hne
  have hij : ⌊h⌋₊ ≤ ⌊k⌋₊ := Nat.floor_le_floor hhk
  have hjn : ⌊k⌋₊ ≤ s.length - 1 := by
    have h1 : ⌊k⌋₊ ≤ ⌊((s.length - 1 : ℕ) : ℚ)⌋₊ := Nat.floor_le_floor hk
    simpa using h1
  have hjlt : ⌊k⌋₊ < s.length := Nat.lt_of_le_of_lt hjn (Nat.sub_lt hn1 Nat.one_pos)
  have hilt : ⌊h⌋₊ < s.length := Nat.lt_of_le_of_lt hij hjlt
  have gh0 : 0 ≤ h - (⌊h⌋₊ : ℚ) := sub_nonneg.2 (Nat.floor_le h0)
  have gh1 : h - (⌊h⌋₊ : ℚ) ≤ 1 := by
    have hlt1 := Nat.lt_floor_add_one h
    push_cast at hlt1 ⊢
    linarith
  have gk0 : 0 ≤ k - (⌊k⌋₊ : ℚ) := sub_nonneg.2 (Nat.floor_le k0)
  rcases eq_or_lt_of_le hij with heq | hlt
  · unfold interp
    rw [← heq]
    by_cases hb : ⌊h⌋₊ + 1 < s.length
    · rw [getD_of_lt _ _ hb]
      have hmono : s.getD ⌊h⌋₊ 0 ≤ s.getD (⌊h⌋₊ + 1) 0 :=
        sorted_getD_le hs (Nat.le_succ _) hb
      have hfac := mul_le_mul_of_nonneg_right
        (sub_le_sub_right hhk ((⌊h⌋₊ : ℚ))) (sub_nonneg.2 hmono)
      linarith
    · rw [getD_of_le _ _ (le_of_not_lt hb)]
      simp
  · have hi1j : ⌊h⌋₊ + 1 ≤ ⌊k⌋₊ := hlt
    have hi1 : ⌊h⌋₊ + 1 < s.length := Nat.lt_of_le_of_lt hi1j hjlt
    have e1 : interp s h ≤ s.getD (⌊h⌋₊ + 1) 0 := by
      unfold interp
      rw [getD_of_lt _ _ hi1]
      have hmono : s.getD ⌊h⌋₊ 0 ≤ s.getD (⌊h⌋₊ + 1) 0 :=
        sorted_getD_le hs (Nat.le_succ _) hi1
      nlinarith
    have e2 : s.getD (⌊h⌋₊ + 1) 0 ≤ s.getD ⌊k⌋₊ 0 := sorted_getD_le hs hi1j hjlt
    have e3 : s.getD ⌊k⌋₊ 0 ≤ interp s k := by
      unfold interp
      by_cases hb : ⌊k⌋₊ + 1 < s.length
      · rw [getD_of_lt _ _ hb]
        have hmono : s.getD ⌊k⌋₊ 0 ≤ s.getD (⌊k⌋₊ + 1) 0 :=
          sorted_getD_le hs (Nat.le_succ _) hb
        nlinarith
      · rw [getD_of_le _ _ (le_of_not_lt hb)]
        simp
    linarith

/-- Quantiles with linear interpolation are monotone in the quantile level. -/
theorem quantile_mono {l : List ℚ} (hne : l ≠ []) {p q : ℚ}
    (hp : 0 ≤ p) (hpq : p ≤ q) (hq : q ≤ 1) :
    ∃ a b, quantile l p = some a ∧ quantile l q = some b ∧ a ≤ b := by
  have hperm := List.mergeSort_perm l (fun a b => a ≤ b)
  have hlen : l.mergeSort.length = l.length := hperm.length_eq
  have hsne : l.mergeSort ≠ [] := by
    intro hnil
    rw [hnil] at hperm
    exact hne hperm.nil_eq.symm
  have hsorted : List.Sorted (· ≤ ·) l.mergeSort := List.sorted_mergeSort' l
  refine ⟨interp l.mergeSort (((l.length - 1 : ℕ) : ℚ) * p),
    interp l.mergeSort (((l.length - 1 : ℕ) : ℚ) * q), by simp [quantile, hne],
    by simp [quantile, hne], ?_⟩
  apply interp_mono hsorted hsne
  · exact mul_nonneg (Nat.cast_nonneg _) hp
  · exact mul_le_mul_of_nonneg_left hpq (Nat.cast_nonneg _)
  · rw [hlen]
    exact mul_le_of_le_one_right (Nat.cast_nonneg _) hq

/-- The numeric column of `df_RFV` read by a metric name. -/
def metricValue (m : Metric) (cm : CustomerMetrics) : ℚ :=
  match m with
  | Metric.Recencia => (cm.Recencia : ℚ)
  | Metric.Frequencia => (cm.Frequencia : ℚ)
  | Metric.Valor => cm.Valor

/-- Embedding of `quartis = df_RFV.quantile(q=[0.25, 0.5, 0.75])`, one entry of
the table: the boundary of metric `m` at level `lvl`. -/
def quartis (ms : List CustomerMetrics) (m : Metric) (lvl : ℚ) : Option ℚ :=
  quantile (ms.map (metricValue m)) lvl

/-- C8: over any nonempty customer population, each metric's quartile
boundaries exist and satisfy `q25 ≤ q50 ≤ q75`. -/
theorem quartis_monotone (ms : List CustomerMetrics) (hne : ms ≠ []) (m : Metric) :
    ∃ a b c, quartis ms m (1/4) = some a ∧ quartis ms m (1/2) = some b ∧
      quartis ms m (3/4) = some c ∧ a ≤ b ∧ b ≤ c := by
  have hmap : ms.map (metricValue m) ≠ [] := by
    simpa [List.map_eq_nil_iff] using hne
  obtain ⟨a, b, ha, hb, hab⟩ :=
    quantile_mono hmap (p := 1/4) (q := 1/2) (by norm_num) (by norm_num) (by norm_num)
  obtain ⟨b2, c, hb2, hc, hbc⟩ :=
    quantile_mono hmap (p := 1/2) (q := 3/4) (by norm_num) (by norm_num) (by norm_num)
  have hbb : b = b2 := by
    have := hb.symm.trans hb2
    exact Option.some_injective _ this
  exact ⟨a, b, c, ha, hb, hc, hab, hbb ▸ hbc⟩

/-- Witness for C8: a two-customer population. -/
theorem quartis_monotone_witness :
    ([⟨1, 10, 2, 80⟩, ⟨2, 0, 1, 7⟩] : List CustomerMetrics) ≠ [] ∧
    ∃ a b c, quartis [⟨1, 10, 2, 80⟩, ⟨2, 0, 1, 7⟩] Metric.Valor (1/4) = some a ∧
      quartis [⟨1, 10, 2, 80⟩, ⟨2, 0, 1, 7⟩] Metric.Valor (1/2) = some b ∧
      quartis [⟨1, 10, 2, 80⟩, ⟨2, 0, 1, 7⟩] Metric.Valor (3/4) = some c ∧
      a ≤ b ∧ b ≤ c :=
  ⟨by decide, quartis_monotone _ (by decide) Metric.Valor⟩

/-- A quantile of a one-element column is that element, at every level. -/
theorem quantile_single (x : ℚ) (q : ℚ) : quantile [x] q = some x := by
  have hms : List.mergeSort [x] (fun a b => decide (a ≤ b)) = [x] := by
    simp [List.mergeSort]
  simp [quantile, interp, hms]

/-- C9: for a population of exactly one customer, quartile estimation succeeds
and all three boundaries of every metric equal that customer's value. -/
theorem quartis_singleton (cm : CustomerMetrics) (m : Metric) :
    quartis [cm] m (1/4) = some (metricValue m cm) ∧
    quartis [cm] m (1/2) = some (metricValue m cm) ∧
    quartis [cm] m (3/4) = some (metricValue m cm) :=
  ⟨quantile_single _ _, quantile_single _ _, quantile_single _ _⟩

/-- Embedding of `dict_acoes` together with `Series.map`'s missing-key
behaviour: a score outside the four known keys maps to `none` (`NaN`). -/
def dict_acoes (s : String) : Option String :=
  if s = "AAA" then
    some "Enviar cupons de desconto, pedir indicação, enviar amostras grátis de novos produtos."
  else if s = "DDD" then
    some "Clientes inativos com baixo gasto — monitorar ou desconsiderar ações."
  else if s = "DAA" then
    some "Clientes que gastaram bastante mas estão sumindo — enviar cupom de reativação."
  else if s = "CAA" then
    some "Clientes que gastaram bastante mas estão sumindo — enviar cupom de reativação."
  else none

/-- C6: the action resolver sends `AAA` to the retention/upsell text, `DDD` to
the inactive text, `DAA` and `CAA` to the reactivation-coupon text, and every
other score to `none` — a marker distinct from every real action, never any
listed action. -/
theorem dict_acoes_total :
    dict_acoes "AAA" =
      some "Enviar cupons de desconto, pedir indicação, enviar amostras grátis de novos produtos." ∧
    dict_acoes "DDD" =
      some "Clientes inativos com baixo gasto — monitorar ou desconsiderar ações." ∧
    dict_acoes "DAA" =
      some "Clientes que gastaram bastante mas estão sumindo — enviar cupom de reativação." ∧
    dict_acoes "CAA" =
      some "Clientes que gastaram bastante mas estão sumindo — enviar cupom de reativação." ∧
    ∀ s : String, s ≠ "AAA" → s ≠ "DDD" → s ≠ "DAA" → s ≠ "CAA" →
      dict_acoes s = none ∧ ∀ a : String, dict_acoes s ≠ some a := by
  refine ⟨rfl, rfl, rfl, rfl, ?_⟩
  intro s h1 h2 h3 h4
  have hnone : dict_acoes s = none := by simp [dict_acoes, h1, h2, h3, h4]
  exact ⟨hnone, fun a => by simp [hnone]⟩

/-- Witness for C6: the unknown score `BBB` resolves to the explicit
no-action marker. -/
theorem dict_acoes_total_witness :
    ("BBB" : String) ≠ "AAA" ∧ dict_acoes "BBB" = none :=
  ⟨by decide,
   (dict_acoes_total.2.2.2.2 "BBB" (by decide) (by decide) (by decide) (by decide)).1⟩

/-- One row of the final classified table. -/
structure RFVRecord : Type where
  metrics : CustomerMetrics
  R_quartil : Char
  F_quartil : Char
  V_quartil : Char
  RFV_Score : String
  acao : Option String
deriving DecidableEq

/-- Embedding of the core of `main()` past ingestion: aggregate `df_RFV`,
compute the quartile table, classify each customer, compose the score and
look up the action.  `main()` has no emptiness check and never raises on an
empty dataset: `max()` is merely undefined (`NaT`) and every later groupby,
apply, quantile and map simply runs over zero rows, so the pipeline is a
total function that yields an empty table on empty input.  The `getD 0`
defaults stand for the `NaN` boundaries of a quantile over an empty column;
they are never read, because then there are no rows to classify. -/
def main_pipeline (df : List Transaction) : List RFVRecord :=
  let rfv := df_RFV df
  let q_dict : QDict := fun m =>
    { q25 := (quartis rfv m (1/4)).getD 0
      q50 := (quartis rfv m (1/2)).getD 0
      q75 := (quartis rfv m (3/4)).getD 0 }
  rfv.map fun cm =>
    let r := recencia_class (metricValue Metric.Recencia cm) Metric.Recencia q_dict
    let f := freq_val_class (metricValue Metric.Frequencia cm) Metric.Frequencia q_dict
    let v := freq_val_class (metricValue Metric.Valor cm) Metric.Valor q_dict
    let score := String.mk [r, f, v]
    { metrics := cm
      R_quartil := r
      F_quartil := f
      V_quartil := v
      RFV_Score := score
      acao := dict_acoes score }

/-- C7, evaluated at the claim's failing input: on the empty transaction
sequence the source does not abort — no `EmptyDatasetError` exists anywhere
in `app.py`.  `dia_atual` is undefined (`NaT`), every aggregation frame is
empty, and the run completes, rendering an empty table with no customer
metric or RFV record, instead of failing as the claim mandates. -/
theorem main_pipeline_empty :
    main_pipeline [] = [] ∧ dia_atual [] = none ∧
    df_RFV [] = [] ∧ df_recencia [] = [] ∧ df_frequencia [] = [] ∧
    df_valor [] = [] :=
  ⟨rfl, rfl, rfl, rfl, rfl, rfl⟩

/-- C10: grading is monotone in each policy's direction: on any monotone
quartile table, a smaller metric value gets a recency grade at least as good,
and a larger metric value gets a frequency/value grade at least as good,
under the order `D < C < B < A`. -/
theorem grade_monotone (x y : ℚ) (r fv : Metric) (q_dict : QDict)
    (h1 : (q_dict r).q25 ≤ (q_dict r).q50) (h2 : (q_dict r).q50 ≤ (q_dict r).q75)
    (h3 : (q_dict fv).q25 ≤ (q_dict fv).q50) (h4 : (q_dict fv).q50 ≤ (q_dict fv).q75)
    (hxy : x ≤ y) :
    gradeValue (recencia_class y r q_dict) ≤ gradeValue (recencia_class x r q_dict) ∧
    gradeValue (freq_val_class x fv q_dict) ≤ gradeValue (freq_val_class y fv q_dict) := by
  refine ⟨?_, ?_⟩ <;>
    (simp only [recencia_class, freq_val_class]
     split_ifs <;> simp [gradeValue] <;> linarith)

/-- Witness for C10 on the example table at `3 ≤ 5`. -/
theorem grade_monotone_witness :
    ((exQ Metric.Recencia).q25 ≤ (exQ Metric.Recencia).q50 ∧
     (exQ Metric.Recencia).q50 ≤ (exQ Metric.Recencia).q75 ∧ (3 : ℚ) ≤ 5) ∧
    gradeValue (recencia_class 5 Metric.Recencia exQ) ≤
      gradeValue (recencia_class 3 Metric.Recencia exQ) ∧
    gradeValue (freq_val_class 3 Metric.Valor exQ) ≤
      gradeValue (freq_val_class 5 Metric.Valor exQ) :=
  ⟨⟨by decide, by decide, by decide⟩,
   grade_monotone 3 5 Metric.Recencia Metric.Valor exQ (by decide) (by decide)
     (by decide) (by decide) (by decide)⟩
